import Mathlib

/-!
# Verification of the multi-label skin-condition evaluation pipeline

The repository is a skin-diagnosis web application whose algorithmic core is a
multi-label image-classification training and evaluation pipeline: probability
calibration, thresholding policies, a multi-label evaluation engine
(precision / recall / F1, macro and micro averages, Top-K accuracy), and
class-imbalance diagnostics.  The web backend (`backend/src/routes/ai.js`)
additionally contains a fallback analysis path used when the Flask AI service
is unreachable.

The Python training/evaluation code itself is not part of the repository
snapshot (only its shell-script drivers, analysis reports and the web callers
are present), so the metric engine, thresholding policy, calibration and
diagnostics components are modelled from the specification; the backend
JavaScript (`ai.js`) is embedded directly from the source.

Numbers are modelled as `ℚ` (probabilities, scores, metrics) and `ℝ` (raw
model scores fed to the sigmoid); sample collections as `List`s.
-/

namespace SkinEval

/-- Modelled from the spec: per-class confusion counts `{TP, FP, FN, TN}`,
four non-negative integers accumulated over an evaluation pass (§3
ConfusionCounts).  The evaluation engine is absent from the repository
sources, so it is modelled from the spec. -/
structure ConfusionCounts where
  tp : ℕ
  fp : ℕ
  fn : ℕ
  tn : ℕ
deriving DecidableEq, Repr

/-- Modelled from the spec: per-class precision = TP/(TP+FP), defined as 0
when TP+FP = 0 (§4.4). -/
def precision (c : ConfusionCounts) : ℚ :=
  if c.tp + c.fp = 0 then 0 else (c.tp : ℚ) / ((c.tp : ℚ) + (c.fp : ℚ))

/-- Modelled from the spec: per-class recall = TP/(TP+FN), defined as 0 when
TP+FN = 0 (§4.4). -/
def recallVal (c : ConfusionCounts) : ℚ :=
  if c.tp + c.fn = 0 then 0 else (c.tp : ℚ) / ((c.tp : ℚ) + (c.fn : ℚ))

/-- Modelled from the spec: per-class F1 = harmonic mean of precision and
recall, defined as 0 when both are 0 (§4.4). -/
def f1 (c : ConfusionCounts) : ℚ :=
  if precision c + recallVal c = 0 then 0
  else 2 * precision c * recallVal c / (precision c + recallVal c)

theorem precision_nonneg (c : ConfusionCounts) : 0 ≤ precision c := by
  unfold precision
  split
  · exact le_refl 0
  · positivity

theorem recall_nonneg (c : ConfusionCounts) : 0 ≤ recallVal c := by
  unfold recallVal
  split
  · exact le_refl 0
  · positivity

theorem precision_pos (c : ConfusionCounts) (h : 0 < c.tp) : 0 < precision c := by
  unfold precision
  rw [if_neg (by omega)]
  have h1 : (0 : ℚ) < (c.tp : ℚ) := by exact_mod_cast h
  have h2 : (0 : ℚ) < (c.tp : ℚ) + (c.fp : ℚ) := by positivity
  exact div_pos h1 h2

theorem recall_pos (c : ConfusionCounts) (h : 0 < c.tp) : 0 < recallVal c := by
  unfold recallVal
  rw [if_neg (by omega)]
  have h1 : (0 : ℚ) < (c.tp : ℚ) := by exact_mod_cast h
  have h2 : (0 : ℚ) < (c.tp : ℚ) + (c.fn : ℚ) := by positivity
  exact div_pos h1 h2

theorem precision_eq_zero (c : ConfusionCounts) (h : c.tp = 0) : precision c = 0 := by
  unfold precision
  split
  · rfl
  · rw [h]; simp

theorem recall_eq_zero (c : ConfusionCounts) (h : c.tp = 0) : recallVal c = 0 := by
  unfold recallVal
  split
  · rfl
  · rw [h]; simp

theorem f1_pos (c : ConfusionCounts) (h : 0 < c.tp) : 0 < f1 c := by
  have hp := precision_pos c h
  have hr := recall_pos c h
  unfold f1
  rw [if_neg (by positivity)]
  positivity

theorem f1_eq_zero_iff (c : ConfusionCounts) : f1 c = 0 ↔ c.tp = 0 := by
  constructor
  · intro h
    by_contra htp
    exact absurd h (ne_of_gt (f1_pos c (Nat.pos_of_ne_zero htp)))
  · intro h
    unfold f1
    rw [precision_eq_zero c h, recall_eq_zero c h]
    simp

/-- **C2.** For every combination of non-negative confusion counts (including
TP = FP = FN = 0): precision equals TP/(TP+FP) with value 0 when TP+FP = 0;
recall equals TP/(TP+FN) with value 0 when TP+FN = 0; F1 is 0 exactly when
TP = 0 and positive whenever TP > 0.  All three are total functions into ℚ,
so no input yields NaN or an undefined value. -/
theorem per_class_metrics_total (c : ConfusionCounts) :
    (precision c = if c.tp + c.fp = 0 then 0 else (c.tp : ℚ) / ((c.tp : ℚ) + (c.fp : ℚ))) ∧
    (recallVal c = if c.tp + c.fn = 0 then 0 else (c.tp : ℚ) / ((c.tp : ℚ) + (c.fn : ℚ))) ∧
    (f1 c = 0 ↔ c.tp = 0) ∧
    (0 < c.tp → 0 < f1 c) :=
  ⟨rfl, rfl, f1_eq_zero_iff c, f1_pos c⟩

/-- Witness for C2 at the concrete counts TP=1, FP=2, FN=3, TN=4. -/
theorem per_class_metrics_total_w :
    ((f1 ⟨1, 2, 3, 4⟩ = 0 ↔ (1 : ℕ) = 0) ∧ (0 < (1 : ℕ) → 0 < f1 ⟨1, 2, 3, 4⟩)) ∧
    0 < f1 ⟨1, 2, 3, 4⟩ := by
  have h := per_class_metrics_total ⟨1, 2, 3, 4⟩
  exact ⟨⟨h.2.2.1, h.2.2.2⟩, h.2.2.2 (by decide)⟩

/-- Modelled from the spec: one evaluation sample — the calibrated
ProbabilityVector together with the (possibly fractional) TargetVector
(§3).  The evaluation driver is absent from the repository sources. -/
structure Sample where
  probs : List ℚ
  target : List ℚ
deriving DecidableEq, Repr

/-- Modelled from the spec: a fractional target counts as positive for
discrete confusion counting iff it reaches the agreement cutoff 1/2
(§4.4). -/
def targetPos (s : Sample) (c : ℕ) : Bool :=
  decide ((1 : ℚ) / 2 ≤ s.target.getD c 0)

/-- Modelled from the spec: the Threshold Set together with its strategy —
a single global scalar, a per-class vector, or the K of top-K selection
(§3, §4.3). -/
inductive Policy where
  | globalT (t : ℚ)
  | perClass (ts : List ℚ)
  | topK (k : ℕ)
deriving DecidableEq, Repr

/-- Modelled from the spec: the rank of class `c` in a probability vector —
the number of classes beating it, where `d` beats `c` iff `d` has strictly
higher probability or equal probability and lower index (a deterministic
reading of "the K highest-probability classes", §4.3.3). -/
def rankOf (probs : List ℚ) (c : ℕ) : ℕ :=
  ((List.range probs.length).filter (fun d =>
    decide (probs.getD c 0 < probs.getD d 0 ∨
      (probs.getD d 0 = probs.getD c 0 ∧ d < c)))).length

/-- Modelled from the spec: `decide(probabilities, thresholds)` — whether
class `c` is in the predicted positive set of one sample (§4.3).  Global:
positive iff `t ≤ p_c`; per-class: positive iff `t_c ≤ p_c`; top-K:
positive iff the class's rank is below K.  A class index outside the
probability vector is never predicted (the guard on `c`); a missing
per-class threshold entry defaults to 1 and a missing probability to 0. -/
def decidePos (pol : Policy) (probs : List ℚ) (c : ℕ) : Bool :=
  match pol with
  | .globalT t => decide (t ≤ probs.getD c 0) && decide (c < probs.length)
  | .perClass ts => decide (ts.getD c 1 ≤ probs.getD c 0) && decide (c < probs.length)
  | .topK k => decide (rankOf probs c < k) && decide (c < probs.length)

/-- **C4.** `decide` is antitone in each threshold component: if the
threshold of class `c` under `ts` is at most its threshold under `ts'`,
every class-`c` positive under `ts'` is positive under `ts` (raising a
threshold can only remove the class, lowering it can only add it); the
decision for class `c` depends only on component `c` of the threshold
vector, so changing `t_c` affects no other class; and under the global
strategy class `c` is predicted positive exactly when `t ≤ p_c`. -/
theorem decide_antitone :
    (∀ (probs ts ts' : List ℚ) (c : ℕ),
      ts.getD c 1 ≤ ts'.getD c 1 →
      decidePos (.perClass ts') probs c = true →
      decidePos (.perClass ts) probs c = true) ∧
    (∀ (probs ts ts' : List ℚ) (c : ℕ),
      ts.getD c 1 = ts'.getD c 1 →
      decidePos (.perClass ts) probs c = decidePos (.perClass ts') probs c) ∧
    (∀ (probs : List ℚ) (t : ℚ) (c : ℕ), c < probs.length →
      (decidePos (.globalT t) probs c = true ↔ t ≤ probs.getD c 0)) := by
  refine ⟨?_, ?_, ?_⟩
  · intro probs ts ts' c hle h
    simp only [decidePos, Bool.and_eq_true, decide_eq_true_eq] at h ⊢
    exact ⟨le_trans hle h.1, h.2⟩
  · intro probs ts ts' c heq
    simp only [decidePos, heq]
  · intro probs t c hc
    simp only [decidePos, Bool.and_eq_true, decide_eq_true_eq]
    exact ⟨fun h => h.1, fun h => ⟨h, hc⟩⟩

/-- Witness for C4 at probabilities `[1/2]`, thresholds `[1/8]` and `[1/4]`,
class 0. -/
theorem decide_antitone_w :
    decidePos (.perClass [(1 : ℚ)/8]) [(1 : ℚ)/2] 0 = true ∧
    decidePos (.perClass [(1 : ℚ)/8]) [(1 : ℚ)/2] 0 =
      decidePos (.perClass [(1 : ℚ)/8, 9]) [(1 : ℚ)/2] 0 ∧
    (decidePos (.globalT (1/4)) [(1 : ℚ)/2] 0 = true ↔ (1 : ℚ)/4 ≤ ([(1 : ℚ)/2].getD 0 0)) := by
  refine ⟨?_, ?_, ?_⟩
  · refine decide_antitone.1 [(1 : ℚ)/2] [(1 : ℚ)/8] [(1 : ℚ)/4] 0 ?_ ?_
    · simp only [List.getD_cons_zero]
      norm_num
    · simp only [decidePos, List.getD_cons_zero, List.length_cons, List.length_nil,
        Bool.and_eq_true, decide_eq_true_eq]
      norm_num
  · refine decide_antitone.2.1 [(1 : ℚ)/2] [(1 : ℚ)/8] [(1 : ℚ)/8, 9] 0 ?_
    simp only [List.getD_cons_zero]
  · exact decide_antitone.2.2 [(1 : ℚ)/2] ((1 : ℚ)/4) 0 (by decide)

/-- Modelled from the spec: TP accumulation — the number of samples where
class `c` is both predicted and target-positive (§4.4). -/
def tpCount (pol : Policy) (data : List Sample) (c : ℕ) : ℕ :=
  data.countP (fun s => decidePos pol s.probs c && targetPos s c)

/-- Modelled from the spec: FP accumulation — predicted but not
target-positive (§4.4). -/
def fpCount (pol : Policy) (data : List Sample) (c : ℕ) : ℕ :=
  data.countP (fun s => decidePos pol s.probs c && !targetPos s c)

/-- Modelled from the spec: FN accumulation — target-positive but not
predicted (§4.4). -/
def fnCount (pol : Policy) (data : List Sample) (c : ℕ) : ℕ :=
  data.countP (fun s => !decidePos pol s.probs c && targetPos s c)

/-- Modelled from the spec: TN accumulation — neither predicted nor
target-positive (§4.4). -/
def tnCount (pol : Policy) (data : List Sample) (c : ℕ) : ℕ :=
  data.countP (fun s => !decidePos pol s.probs c && !targetPos s c)

/-- Modelled from the spec: the per-class ConfusionCounts accumulated over
an evaluation pass (§3, §4.4). -/
def countsFor (pol : Policy) (data : List Sample) (c : ℕ) : ConfusionCounts :=
  ⟨tpCount pol data c, fpCount pol data c, fnCount pol data c, tnCount pol data c⟩

/-- Modelled from the spec: one per-class row of the EvaluationReport (§3).
The metric fields are `Option` values: `none` marks a class with zero eval
support as "untested" instead of reporting a number for it (§7). -/
structure ClassEntry where
  supportTrain : ℕ
  supportEval : ℕ
  precE : Option ℚ
  recE : Option ℚ
  f1E : Option ℚ
  untested : Bool
deriving DecidableEq, Repr, Inhabited

/-- Modelled from the spec: building the per-class report row from its
confusion counts; eval support is TP+FN (the number of target-positive
samples), and a zero-support class is flagged untested with no metric
values (§4.4, §7). -/
def mkClassEntry (cnt : ConfusionCounts) (supTrain : ℕ) : ClassEntry :=
  if cnt.tp + cnt.fn = 0 then
    { supportTrain := supTrain, supportEval := 0,
      precE := none, recE := none, f1E := none, untested := true }
  else
    { supportTrain := supTrain, supportEval := cnt.tp + cnt.fn,
      precE := some (precision cnt), recE := some (recallVal cnt),
      f1E := some (f1 cnt), untested := false }

/-- Modelled from the spec: the classes included in macro averaging —
exactly those with nonzero support in the evaluation set (§4.4). -/
def macroClasses (entries : List ClassEntry) : List ClassEntry :=
  entries.filter (fun e => decide (e.supportEval ≠ 0))

/-- Mean of a list of rationals (0 for the empty list). -/
def meanOf (vals : List ℚ) : ℚ :=
  if vals.length = 0 then 0 else vals.sum / vals.length

/-- Modelled from the spec: macro F1 — unweighted mean of per-class F1 over
the classes with nonzero eval support (§4.4). -/
def macroF1Of (entries : List ClassEntry) : ℚ :=
  meanOf ((macroClasses entries).filterMap (fun e => e.f1E))

/-- Modelled from the spec: macro precision over in-support classes (§4.4). -/
def macroPrecOf (entries : List ClassEntry) : ℚ :=
  meanOf ((macroClasses entries).filterMap (fun e => e.precE))

/-- Modelled from the spec: macro recall over in-support classes (§4.4). -/
def macroRecOf (entries : List ClassEntry) : ℚ :=
  meanOf ((macroClasses entries).filterMap (fun e => e.recE))

/-- Modelled from the spec: micro confusion counts — TP/FP/FN/TN pooled
across all classes before computing P/R/F1 (§4.4). -/
def microCounts (numClasses : ℕ) (pol : Policy) (data : List Sample) : ConfusionCounts :=
  ⟨((List.range numClasses).map (tpCount pol data)).sum,
   ((List.range numClasses).map (fpCount pol data)).sum,
   ((List.range numClasses).map (fnCount pol data)).sum,
   ((List.range numClasses).map (tnCount pol data)).sum⟩

/-- Modelled from the spec: Top-K hit — whether any target-positive class of
the sample is among its K highest-probability classes, computed from the
ProbabilityVector directly, bypassing the Thresholding Policy (§4.4). -/
def topKHit (k : ℕ) (s : Sample) : Bool :=
  (List.range s.probs.length).any (fun c => targetPos s c && decide (rankOf s.probs c < k))

/-- Modelled from the spec: Top-K accuracy — the fraction of samples with a
Top-K hit (§4.4). -/
def topKAccuracy (k : ℕ) (data : List Sample) : ℚ :=
  if data.length = 0 then 0 else (data.countP (topKHit k) : ℚ) / (data.length : ℚ)

/-- Modelled from the spec: the EvaluationReport — per-class rows plus
aggregate micro/macro P/R/F1 and Top-K accuracy for K ∈ {1,3,5} (§3). -/
structure EvaluationReport where
  entries : List ClassEntry
  microPrec : ℚ
  microRec : ℚ
  microF1 : ℚ
  macroPrec : ℚ
  macroRec : ℚ
  macroF1 : ℚ
  top1 : ℚ
  top3 : ℚ
  top5 : ℚ
deriving DecidableEq, Repr

/-- Modelled from the spec: the Multi-Label Evaluation Engine,
`evaluate(predictions, targets) -> EvaluationReport` (§4.4): predictions
are obtained from each sample's probabilities by the Thresholding Policy,
confusion counts are accumulated per class, per-class and aggregate metrics
are derived from them, and Top-K accuracy is computed from the
probabilities alone. -/
def evaluate (numClasses : ℕ) (pol : Policy) (trainSupport : List ℕ)
    (data : List Sample) : EvaluationReport :=
  let entries := (List.range numClasses).map
    (fun c => mkClassEntry (countsFor pol data c) (trainSupport.getD c 0))
  let micro := microCounts numClasses pol data
  { entries := entries
    microPrec := precision micro
    microRec := recallVal micro
    microF1 := f1 micro
    macroPrec := macroPrecOf entries
    macroRec := macroRecOf entries
    macroF1 := macroF1Of entries
    top1 := topKAccuracy 1 data
    top3 := topKAccuracy 3 data
    top5 := topKAccuracy 5 data }

/-- Modelled from the spec (§8): an evaluation split whose single sample
makes class 0 the only in-support class (predicted and hit at threshold
1/2, so F1 = 1) while classes 1–5 have zero eval support. -/
def scenarioSample : Sample :=
  ⟨[9/10, 1/10, 1/10, 1/10, 1/10, 1/10], [1, 0, 0, 0, 0, 0]⟩

/-- **C1.** Macro metrics average only over classes with nonzero eval
support: the reported macro-F1 is the unweighted mean of per-class F1 over
exactly the entries with `supportEval ≠ 0`; a class with zero eval support
is flagged `untested` with no reported F1 (in particular never `some 0`);
and on a report with one in-support class at F1 = 1 and five
zero-eval-support classes the macro-F1 is 1, not 1/6. -/
theorem macro_excludes_zero_support :
    (∀ (numClasses : ℕ) (pol : Policy) (sup : List ℕ) (data : List Sample),
      (evaluate numClasses pol sup data).macroF1 =
        meanOf (((evaluate numClasses pol sup data).entries.filter
          (fun e => decide (e.supportEval ≠ 0))).filterMap (fun e => e.f1E))) ∧
    (∀ (cnt : ConfusionCounts) (supTrain : ℕ), cnt.tp + cnt.fn = 0 →
      (mkClassEntry cnt supTrain).untested = true ∧
      (mkClassEntry cnt supTrain).f1E = none) ∧
    ((evaluate 6 (.globalT (1/2)) [1, 1, 1, 1, 1, 1] [scenarioSample]).entries.map
      (fun e => e.untested)) = [false, true, true, true, true, true] ∧
    (evaluate 6 (.globalT (1/2)) [1, 1, 1, 1, 1, 1] [scenarioSample]).macroF1 = 1 ∧
    (evaluate 6 (.globalT (1/2)) [1, 1, 1, 1, 1, 1] [scenarioSample]).macroF1 ≠ 1/6 := by
  refine ⟨fun numClasses pol sup data => rfl, ?_, ?_, ?_, ?_⟩
  · intro cnt supTrain h
    unfold mkClassEntry
    rw [if_pos h]
    exact ⟨rfl, rfl⟩
  · norm_num [evaluate, mkClassEntry, countsFor, tpCount, fpCount, fnCount, tnCount,
      decidePos, targetPos, scenarioSample, List.countP, List.countP.go,
      List.range, List.range.loop]
  · norm_num [evaluate, macroF1Of, macroClasses, meanOf, mkClassEntry, countsFor,
      tpCount, fpCount, fnCount, tnCount, decidePos, targetPos, precision, recallVal,
      f1, scenarioSample, List.countP, List.countP.go, List.range, List.range.loop,
      List.filterMap_cons, List.filterMap_nil]
  · norm_num [evaluate, macroF1Of, macroClasses, meanOf, mkClassEntry, countsFor,
      tpCount, fpCount, fnCount, tnCount, decidePos, targetPos, precision, recallVal,
      f1, scenarioSample, List.countP, List.countP.go, List.range, List.range.loop,
      List.filterMap_cons, List.filterMap_nil]

/-- Witness for C1 at the concrete counts TP=0, FP=3, FN=0, TN=7 and train
support 5. -/
theorem macro_excludes_zero_support_w :
    (mkClassEntry ⟨0, 3, 0, 7⟩ 5).untested = true ∧
    (mkClassEntry ⟨0, 3, 0, 7⟩ 5).f1E = none :=
  macro_excludes_zero_support.2.1 ⟨0, 3, 0, 7⟩ 5 (by decide)

/-- **C6.** The Top-K accuracy fields of the report (K ∈ {1,3,5}) are
computed from the probability vectors alone (`topKAccuracy`, which never
reads a Threshold Set), so they are identical across every choice of
Thresholding Policy configuration. -/
theorem topk_invariant_of_policy (numClasses : ℕ) (pol pol' : Policy)
    (sup : List ℕ) (data : List Sample) :
    (evaluate numClasses pol sup data).top1 = topKAccuracy 1 data ∧
    (evaluate numClasses pol sup data).top3 = topKAccuracy 3 data ∧
    (evaluate numClasses pol sup data).top5 = topKAccuracy 5 data ∧
    (evaluate numClasses pol sup data).top1 = (evaluate numClasses pol' sup data).top1 ∧
    (evaluate numClasses pol sup data).top3 = (evaluate numClasses pol' sup data).top3 ∧
    (evaluate numClasses pol sup data).top5 = (evaluate numClasses pol' sup data).top5 :=
  ⟨rfl, rfl, rfl, rfl, rfl, rfl⟩

theorem countsFor_perm (pol : Policy) {data data' : List Sample}
    (h : data.Perm data') (c : ℕ) : countsFor pol data c = countsFor pol data' c := by
  simp only [countsFor, tpCount, fpCount, fnCount, tnCount, h.countP_eq]

/-- **C7.** The Evaluation Engine is a pure, deterministic function of its
inputs: evaluating twice on identical (predictions, targets) data yields
the same report (so byte-identical once serialized), and there is no hidden
accumulation state — re-running over the samples in any other order yields
that very same report. -/
theorem evaluate_deterministic (numClasses : ℕ) (pol : Policy) (sup : List ℕ)
    (data data' : List Sample) (hperm : data.Perm data') :
    evaluate numClasses pol sup data = evaluate numClasses pol sup data ∧
    evaluate numClasses pol sup data = evaluate numClasses pol sup data' := by
  refine ⟨rfl, ?_⟩
  have hfun : (fun c => mkClassEntry (countsFor pol data c) (sup.getD c 0)) =
      (fun c => mkClassEntry (countsFor pol data' c) (sup.getD c 0)) :=
    funext fun c => by rw [countsFor_perm pol hperm c]
  have hmc : microCounts numClasses pol data = microCounts numClasses pol data' := by
    unfold microCounts tpCount fpCount fnCount tnCount
    simp only [hperm.countP_eq]
  have htk : ∀ k, topKAccuracy k data = topKAccuracy k data' := by
    intro k
    unfold topKAccuracy
    rw [hperm.length_eq, hperm.countP_eq]
  simp only [evaluate]
  rw [hfun, hmc, htk 1, htk 3, htk 5]

/-- Witness for C7: a two-sample split processed in both orders. -/
theorem evaluate_deterministic_w :
    evaluate 2 (.topK 1) [3, 4] [(⟨[1, 0], [1, 0]⟩ : Sample), ⟨[0, 1], [0, 1]⟩] =
      evaluate 2 (.topK 1) [3, 4] [(⟨[1, 0], [1, 0]⟩ : Sample), ⟨[0, 1], [0, 1]⟩] ∧
    evaluate 2 (.topK 1) [3, 4] [(⟨[1, 0], [1, 0]⟩ : Sample), ⟨[0, 1], [0, 1]⟩] =
      evaluate 2 (.topK 1) [3, 4] [(⟨[0, 1], [0, 1]⟩ : Sample), ⟨[1, 0], [1, 0]⟩] :=
  evaluate_deterministic 2 (.topK 1) [3, 4] _ _
    (List.Perm.swap (⟨[0, 1], [0, 1]⟩ : Sample) ⟨[1, 0], [1, 0]⟩ [])

/-- Modelled from the spec: the diagnostic flags of §4.5 — the
high-train-support / zero-F1 "paradox", the zero-eval-support "untestable"
(zero-shot) case, and the zero-train-support "train-absent" case. -/
inductive Flag where
  | paradox
  | untestable
  | trainAbsent
deriving DecidableEq, Repr

/-- Modelled from the spec: 0-based rank of class `c` by train support,
descending — the number of classes with strictly larger train support. -/
def rankTrain (entries : List ClassEntry) (c : ℕ) : ℕ :=
  ((List.range entries.length).filter (fun d =>
    decide ((entries.getD c default).supportTrain <
      (entries.getD d default).supportTrain))).length

/-- Modelled from the spec: "train support rank is in the top quartile" —
rank below ⌈n/4⌉ classes, i.e. `4·rank < n` (the spec fixes no rounding
convention; this one keeps the quartile nonempty for nonempty reports). -/
def topQuartile (entries : List ClassEntry) (c : ℕ) : Bool :=
  decide (4 * rankTrain entries c < entries.length)

/-- Modelled from the spec: the flags attached to class `c` (§4.5). -/
def flagsOf (entries : List ClassEntry) (c : ℕ) : List Flag :=
  (if topQuartile entries c && decide ((entries.getD c default).f1E = some 0)
    then [Flag.paradox] else []) ++
  (if (entries.getD c default).supportEval == 0
    then [Flag.untestable] else []) ++
  (if (entries.getD c default).supportTrain == 0 &&
      decide (0 < (entries.getD c default).supportEval)
    then [Flag.trainAbsent] else [])

/-- Modelled from the spec: `diagnose(report, train_support)` — the list of
flagged classes, each with its flags; unflagged classes are omitted
(§4.5).  Train support is read off the report entries, where `evaluate`
stores it. -/
def diagnose (entries : List ClassEntry) : List (ℕ × List Flag) :=
  (List.range entries.length).filterMap (fun c =>
    if flagsOf entries c = [] then none else some (c, flagsOf entries c))

theorem flagsOf_eq_nil_iff (entries : List ClassEntry) (c : ℕ) :
    flagsOf entries c = [] ↔
      ¬((topQuartile entries c = true ∧ (entries.getD c default).f1E = some 0) ∨
        (entries.getD c default).supportEval = 0 ∨
        ((entries.getD c default).supportTrain = 0 ∧
          0 < (entries.getD c default).supportEval)) := by
  unfold flagsOf
  split_ifs with h1 h2 h3 <;>
    simp_all [Bool.and_eq_true, decide_eq_true_eq, beq_iff_eq]

/-- **C8.** `diagnose` flags class `c` if and only if at least one of: its
train-support rank is in the top quartile while its reported F1 is 0; its
eval support is 0 (the untestable zero-shot case — it is present in the
output, never silently dropped); or its train support is 0 while its eval
support is positive (train-absent).  A train-absent class still enters
macro averaging: every entry with positive eval support belongs to
`macroClasses`, the list the macro metrics average over. -/
theorem diagnose_iff (entries : List ClassEntry) (c : ℕ) :
    ((c, flagsOf entries c) ∈ diagnose entries ↔
      c < entries.length ∧
      ((topQuartile entries c = true ∧ (entries.getD c default).f1E = some 0) ∨
       (entries.getD c default).supportEval = 0 ∨
       ((entries.getD c default).supportTrain = 0 ∧
         0 < (entries.getD c default).supportEval))) ∧
    (∀ e ∈ entries, e.supportTrain = 0 → 0 < e.supportEval →
      e ∈ macroClasses entries) := by
  constructor
  · constructor
    · intro h
      obtain ⟨a, ha, heq⟩ := List.mem_filterMap.1 h
      by_cases hfl : flagsOf entries a = []
      · rw [if_pos hfl] at heq
        exact absurd heq (by simp)
      · rw [if_neg hfl] at heq
        have hac : a = c := congrArg Prod.fst (Option.some.inj heq)
        subst hac
        refine ⟨List.mem_range.1 ha, ?_⟩
        by_contra hcond
        exact hfl ((flagsOf_eq_nil_iff entries a).2 hcond)
    · rintro ⟨hlen, hcond⟩
      refine List.mem_filterMap.2 ⟨c, List.mem_range.2 hlen, ?_⟩
      rw [if_neg (fun hfl => (flagsOf_eq_nil_iff entries c).1 hfl hcond)]
  · intro e he h0 h1
    exact List.mem_filter.2 ⟨he, by simp [Nat.pos_iff_ne_zero.1 h1]⟩

/-- Witness for C8: a one-class report whose class has train support 0 and
eval support 2 — it is flagged and still included in macro averaging. -/
theorem diagnose_iff_w :
    ((0, flagsOf [(⟨0, 2, some 0, some 0, some 0, false⟩ : ClassEntry)] 0) ∈
      diagnose [(⟨0, 2, some 0, some 0, some 0, false⟩ : ClassEntry)]) ∧
    (⟨0, 2, some 0, some 0, some 0, false⟩ : ClassEntry) ∈
      macroClasses [(⟨0, 2, some 0, some 0, some 0, false⟩ : ClassEntry)] := by
  constructor
  · exact (diagnose_iff [(⟨0, 2, some 0, some 0, some 0, false⟩ : ClassEntry)] 0).1.2
      ⟨by decide, Or.inr (Or.inr ⟨rfl, by decide⟩)⟩
  · exact (diagnose_iff [(⟨0, 2, some 0, some 0, some 0, false⟩ : ClassEntry)] 0).2
      ⟨0, 2, some 0, some 0, some 0, false⟩ (List.mem_singleton.2 rfl) rfl (by decide)

/-- Modelled from the spec: per-class confusion counts on the validation
split of one class when cutoff `t` is applied — a validation sample
`(predicted probability, true label)` is predicted positive iff `t ≤ p`
(§4.3.2). -/
def cutCounts (samples : List (ℚ × Bool)) (t : ℚ) : ConfusionCounts :=
  ⟨samples.countP (fun s => decide (t ≤ s.1) && s.2),
   samples.countP (fun s => decide (t ≤ s.1) && !s.2),
   samples.countP (fun s => !decide (t ≤ s.1) && s.2),
   samples.countP (fun s => !decide (t ≤ s.1) && !s.2)⟩

/-- Validation F1 of one class at cutoff `t`. -/
def f1At (samples : List (ℚ × Bool)) (t : ℚ) : ℚ :=
  f1 (cutCounts samples t)

/-- Validation precision of one class at cutoff `t`. -/
def precAt (samples : List (ℚ × Bool)) (t : ℚ) : ℚ :=
  precision (cutCounts samples t)

/-- Modelled from the spec: the candidate cutoffs — the distinct predicted
probability values of the validation samples (§4.3.2). -/
def candidates (samples : List (ℚ × Bool)) : List ℚ :=
  (samples.map Prod.fst).dedup

/-- Modelled from the spec: the documented preference order on cutoffs
(§4.3.2): `t'` beats `t` iff it has strictly higher F1, or equal F1 and
strictly higher precision, or equal F1 and precision and a strictly higher
threshold value. -/
def keyLt (samples : List (ℚ × Bool)) (t t' : ℚ) : Prop :=
  f1At samples t < f1At samples t' ∨
  (f1At samples t = f1At samples t' ∧
    (precAt samples t < precAt samples t' ∨
     (precAt samples t = precAt samples t' ∧ t < t')))

instance (samples : List (ℚ × Bool)) (t t' : ℚ) : Decidable (keyLt samples t t') := by
  unfold keyLt
  infer_instance

theorem keyLt_irrefl (s : List (ℚ × Bool)) (t : ℚ) : ¬ keyLt s t t := by
  rintro (h | ⟨-, h | ⟨-, h⟩⟩) <;> exact lt_irrefl _ h

theorem keyLt_trans (s : List (ℚ × Bool)) {a b c : ℚ} :
    keyLt s a b → keyLt s b c → keyLt s a c := by
  rintro (h1 | ⟨e1, h1⟩) (h2 | ⟨e2, h2⟩)
  · exact Or.inl (lt_trans h1 h2)
  · exact Or.inl (e2 ▸ h1)
  · exact Or.inl (e1 ▸ h2)
  · refine Or.inr ⟨e1.trans e2, ?_⟩
    rcases h1 with p1 | ⟨q1, r1⟩ <;> rcases h2 with p2 | ⟨q2, r2⟩
    · exact Or.inl (lt_trans p1 p2)
    · exact Or.inl (q2 ▸ p1)
    · exact Or.inl (q1 ▸ p2)
    · exact Or.inr ⟨q1.trans q2, lt_trans r1 r2⟩

theorem keyLt_total (s : List (ℚ × Bool)) {a b : ℚ} (h : a ≠ b) :
    keyLt s a b ∨ keyLt s b a := by
  rcases lt_trichotomy (f1At s a) (f1At s b) with h1 | h1 | h1
  · exact Or.inl (Or.inl h1)
  · rcases lt_trichotomy (precAt s a) (precAt s b) with h2 | h2 | h2
    · exact Or.inl (Or.inr ⟨h1, Or.inl h2⟩)
    · rcases h.lt_or_lt with h3 | h3
      · exact Or.inl (Or.inr ⟨h1, Or.inr ⟨h2, h3⟩⟩)
      · exact Or.inr (Or.inr ⟨h1.symm, Or.inr ⟨h2.symm, h3⟩⟩)
    · exact Or.inr (Or.inr ⟨h1.symm, Or.inl h2⟩)
  · exact Or.inr (Or.inl h1)

/-- The sweep over candidate cutoffs: fold that keeps the incumbent unless
the next candidate beats it under `keyLt`. -/
def fitSweep (s : List (ℚ × Bool)) (c : ℚ) (cs : List ℚ) : ℚ :=
  cs.foldl (fun acc t => if keyLt s acc t then t else acc) c

theorem fitSweep_mem (s : List (ℚ × Bool)) (c : ℚ) (cs : List ℚ) :
    fitSweep s c cs ∈ c :: cs := by
  induction cs generalizing c with
  | nil => simp [fitSweep]
  | cons t ts ih =>
    simp only [fitSweep, List.foldl_cons]
    by_cases h : keyLt s c t
    · rw [if_pos h]
      exact List.mem_cons_of_mem c (ih t)
    · rw [if_neg h]
      rcases List.mem_cons.1 (ih c) with h' | h'
      · exact List.mem_cons.2 (Or.inl h')
      · exact List.mem_cons_of_mem c (List.mem_cons_of_mem t h')

theorem fitSweep_not_lt (s : List (ℚ × Bool)) (c : ℚ) (cs : List ℚ) :
    ∀ x ∈ c :: cs, ¬ keyLt s (fitSweep s c cs) x := by
  induction cs generalizing c with
  | nil =>
    intro x hx
    rw [List.mem_singleton] at hx
    subst hx
    exact keyLt_irrefl s x
  | cons t ts ih =>
    intro x hx
    simp only [fitSweep, List.foldl_cons]
    by_cases h : keyLt s c t
    · rw [if_pos h]
      rcases List.mem_cons.1 hx with hxc | hxt
      · rw [hxc]
        intro hlt
        have hmt : ¬ keyLt s (fitSweep s t ts) t :=
          ih t t (List.mem_cons_self t ts)
        exact hmt (keyLt_trans s hlt h)
      · exact ih t x hxt
    · rw [if_neg h]
      rcases List.mem_cons.1 hx with hxc | hxt
      · rw [hxc]
        exact ih c c (List.mem_cons_self c ts)
      · rcases List.mem_cons.1 hxt with hxt' | hxts
        · rw [hxt']
          intro hlt
          have hmc : ¬ keyLt s (fitSweep s c ts) c :=
            ih c c (List.mem_cons_self c ts)
          by_cases hec : fitSweep s c ts = c
          · exact h (hec ▸ hlt)
          · rcases keyLt_total s hec with h' | h'
            · exact hmc h'
            · exact h (keyLt_trans s h' hlt)
        · exact ih c x (List.mem_cons_of_mem c hxts)

/-- Modelled from the spec: per-class threshold fitting (§4.3.2) — sweep
the cutoff through each distinct predicted probability value of the
validation samples and retain the best cutoff under the documented order
(max F1, ties to higher precision, then to the higher threshold value);
`none` when there are no validation samples (the degenerate case §7 routes
to a fallback policy). -/
def fitThreshold (samples : List (ℚ × Bool)) : Option ℚ :=
  match candidates samples with
  | [] => none
  | c :: cs => some (fitSweep samples c cs)

/-- **C3.** The fitted cutoff is one of the distinct predicted probability
values, it attains maximal validation F1 among them, among the F1-maximal
cutoffs it has maximal precision, among those it is the largest threshold
value — and it strictly beats every other candidate under the documented
preference order, so it is the unique optimum and is not determined by
implementation or iteration order. -/
theorem fitThreshold_best (samples : List (ℚ × Bool)) (t : ℚ)
    (h : fitThreshold samples = some t) :
    t ∈ candidates samples ∧
    (∀ u ∈ candidates samples, f1At samples u ≤ f1At samples t) ∧
    (∀ u ∈ candidates samples, f1At samples u = f1At samples t →
      precAt samples u ≤ precAt samples t) ∧
    (∀ u ∈ candidates samples, f1At samples u = f1At samples t →
      precAt samples u = precAt samples t → u ≤ t) ∧
    (∀ u ∈ candidates samples, u ≠ t → keyLt samples u t) := by
  unfold fitThreshold at h
  rcases hc : candidates samples with _ | ⟨c, cs⟩
  · rw [hc] at h
    exact Option.noConfusion h
  · rw [hc] at h
    have ht : t = fitSweep samples c cs := (Option.some.inj h).symm
    have hmem : t ∈ c :: cs := by
      rw [ht]
      exact fitSweep_mem samples c cs
    have hnot : ∀ x ∈ c :: cs, ¬ keyLt samples t x := by
      intro x hx
      rw [ht]
      exact fitSweep_not_lt samples c cs x hx
    refine ⟨hmem, ?_, ?_, ?_, ?_⟩
    · intro u hu
      have h1 := hnot u hu
      unfold keyLt at h1
      push_neg at h1
      exact h1.1
    · intro u hu hf
      have h1 := hnot u hu
      unfold keyLt at h1
      push_neg at h1
      exact (h1.2 hf.symm).1
    · intro u hu hf hp
      have h1 := hnot u hu
      unfold keyLt at h1
      push_neg at h1
      exact (h1.2 hf.symm).2 hp.symm
    · intro u hu hne
      rcases keyLt_total samples hne with h' | h'
      · exact h'
      · exact absurd h' (hnot u hu)

/-- Witness for C3 on the one-sample validation split `[(1, true)]`. -/
theorem fitThreshold_best_w :
    ((1 : ℚ) ∈ candidates [((1 : ℚ), true)]) ∧
    (∀ u ∈ candidates [((1 : ℚ), true)], u ≠ 1 → keyLt [((1 : ℚ), true)] u 1) := by
  have h := fitThreshold_best [((1 : ℚ), true)] 1 rfl
  exact ⟨h.1, h.2.2.2.2⟩

/-- Modelled from the spec: the elementwise sigmoid squashing a raw model
score into a per-class probability (§4.2). -/
noncomputable def sigmoid (x : ℝ) : ℝ :=
  1 / (1 + Real.exp (-x))

/-- Modelled from the spec: `calibrate(scores) -> ProbabilityVector` —
strictly elementwise sigmoid, no cross-class normalization (§4.2). -/
noncomputable def calibrate (scores : List ℝ) : List ℝ :=
  scores.map sigmoid

theorem sigmoid_pos (x : ℝ) : 0 < sigmoid x := by
  unfold sigmoid
  positivity

theorem sigmoid_lt_one (x : ℝ) : sigmoid x < 1 := by
  unfold sigmoid
  rw [div_lt_one (by positivity)]
  linarith [Real.exp_pos (-x)]

theorem sigmoid_strictMono : StrictMono sigmoid := by
  intro a b hab
  unfold sigmoid
  have h1 : Real.exp (-b) < Real.exp (-a) := Real.exp_lt_exp.2 (by linarith)
  have h2 : (0 : ℝ) < 1 + Real.exp (-b) := by positivity
  have h3 : (0 : ℝ) < 1 + Real.exp (-a) := by positivity
  rw [div_lt_div_iff₀ h3 h2]
  linarith

theorem calibrate_getD (scores : List ℝ) (i : ℕ) (hi : i < scores.length) :
    (calibrate scores).getD i 0 = sigmoid (scores.getD i 0) := by
  unfold calibrate
  rw [List.getD_eq_getElem?_getD, List.getD_eq_getElem?_getD, List.getElem?_map,
    List.getElem?_eq_getElem hi]
  rfl

/-- **C5.** `calibrate` applies an elementwise sigmoid with no cross-class
normalization: output component `i` is `sigmoid` of input component `i`
alone; every output component lies strictly inside the open interval
(0, 1); and for two components of one sample a strictly smaller score
yields a strictly smaller calibrated probability. -/
theorem calibrate_props (scores : List ℝ) (i j : ℕ)
    (hi : i < scores.length) (hj : j < scores.length) :
    (calibrate scores).getD i 0 = sigmoid (scores.getD i 0) ∧
    0 < (calibrate scores).getD i 0 ∧
    (calibrate scores).getD i 0 < 1 ∧
    (scores.getD i 0 < scores.getD j 0 →
      (calibrate scores).getD i 0 < (calibrate scores).getD j 0) := by
  refine ⟨calibrate_getD scores i hi, ?_, ?_, ?_⟩
  · rw [calibrate_getD scores i hi]
    exact sigmoid_pos _
  · rw [calibrate_getD scores i hi]
    exact sigmoid_lt_one _
  · intro hij
    rw [calibrate_getD scores i hi, calibrate_getD scores j hj]
    exact sigmoid_strictMono hij

/-- Witness for C5 at the score vector `[0, 1]`, components 0 and 1. -/
theorem calibrate_props_w :
    (calibrate [(0 : ℝ), 1]).getD 0 0 = sigmoid ([(0 : ℝ), 1].getD 0 0) ∧
    0 < (calibrate [(0 : ℝ), 1]).getD 0 0 ∧
    (calibrate [(0 : ℝ), 1]).getD 0 0 < 1 ∧
    (calibrate [(0 : ℝ), 1]).getD 0 0 < (calibrate [(0 : ℝ), 1]).getD 1 0 := by
  have h := calibrate_props [(0 : ℝ), 1] 0 1 (by decide) (by decide)
  refine ⟨h.1, h.2.1, h.2.2.1, h.2.2.2 ?_⟩
  simp only [List.getD_cons_zero, List.getD_cons_succ]
  norm_num

/-- From `backend/src/routes/ai.js` (`analyzeImageWithAI`, catch block):
the error codes the backend distinguishes — `ECONNREFUSED` and `ETIMEDOUT`
trigger the fallback, every other error is rethrown. -/
inductive ErrCode where
  | econnrefused
  | etimedout
  | other
deriving DecidableEq, Repr

/-- From `ai.js`: the fields of a Flask `/predict` success payload
(`response.data.data`) that the backend later reads — `predictions` (each
reduced to its recommendations array), `top_disease`,
`overall_confidence` and `summary`; a missing field is `none`. -/
structure FlaskData where
  predictions : List (List String)
  top_disease : Option String
  overall_confidence : Option ℚ
  summary : Option String
deriving DecidableEq, Repr

/-- From `ai.js`: the survey fields `generateFallbackAnalysis` reads —
`imageFilename` and the first two answers (skin type and concerns); a
missing field is `none`. -/
structure Survey where
  imageFilename : Option String
  skinType : Option String
  concerns : Option (List String)
deriving DecidableEq, Repr

/-- The `Math.random()` draws consumed by one fallback analysis, passed in
explicitly (score, moisture, elasticity, pores, pigmentation); each is
meant to lie in `[0, 1)`. -/
structure FallbackRands where
  scoreR : ℚ
  moistureR : ℚ
  elasticityR : ℚ
  poresR : ℚ
  pigmentationR : ℚ
deriving DecidableEq, Repr

/-- From `ai.js` (`estimateMoisture`): skin-type keyed base plus a random
spread `Math.floor(r·20)` (the JavaScript builds the whole map, drawing one
random per entry, and returns the selected entry; only the selected
entry's draw is observable and is the `r` here). -/
def estimateMoisture (skinType : String) (r : ℚ) : ℤ :=
  if skinType = "건성" then 40 + ⌊r * 20⌋
  else if skinType = "지성" then 70 + ⌊r * 20⌋
  else if skinType = "복합성" then 60 + ⌊r * 20⌋
  else if skinType = "민감성" then 50 + ⌊r * 20⌋
  else 60 + ⌊r * 20⌋

/-- From `ai.js` (`estimatePores`): base 70, minus 10 for oily skin
("지성"), minus 15 for the "모공" concern, plus `Math.floor(r·10)`, floored
at 40 by `Math.max`. -/
def estimatePores (skinType : String) (concerns : List String) (r : ℚ) : ℤ :=
  max 40 ((70 - (if skinType = "지성" then 10 else 0) -
    (if "모공" ∈ concerns then 15 else 0)) + ⌊r * 10⌋)

/-- From `ai.js` lines 505–534 (`generateFallbackAnalysis(survey = {})`):
empty predictions, `topDisease: null`, `overallConfidence: 0`,
`score: Math.floor(Math.random() * 30) + 70`, and detailed scores with
their own draws.  The constant Korean strings (`aiSummary`, `summary`,
`warning`, the recommendation texts) are omitted from the model. -/
structure FallbackAnalysis where
  imageFilename : Option String
  skinType : String
  concerns : List String
  predictions : List (List String)
  topDisease : Option String
  overallConfidence : ℚ
  score : ℤ
  moisture : ℤ
  elasticity : ℤ
  pores : ℤ
  pigmentation : ℤ
deriving DecidableEq, Repr

/-- From `ai.js` lines 505–534: the fallback analysis itself. -/
def generateFallbackAnalysis (survey : Option Survey) (rnd : FallbackRands) :
    FallbackAnalysis :=
  let sv := survey.getD ⟨none, none, none⟩
  let skinType := sv.skinType.getD "알 수 없음"
  let concerns := sv.concerns.getD []
  { imageFilename := sv.imageFilename
    skinType := skinType
    concerns := concerns
    predictions := []
    topDisease := none
    overallConfidence := 0
    score := ⌊rnd.scoreR * 30⌋ + 70
    moisture := estimateMoisture skinType rnd.moistureR
    elasticity := 70 + ⌊rnd.elasticityR * 20⌋
    pores := estimatePores skinType concerns rnd.poresR
    pigmentation :=
      if "색소침착" ∈ concerns then 50 + ⌊rnd.pigmentationR * 20⌋
      else 70 + ⌊rnd.pigmentationR * 20⌋ }

/-- From `ai.js` lines 378–418 (`analyzeImageWithAI`), the axios call
abstracted as its outcome: a success returns the Flask payload
(`response.data.data`); `ECONNREFUSED`/`ETIMEDOUT` return
`generateFallbackAnalysis()` — with no survey argument — instead of
propagating; any other error is rethrown.  The success payload
(snake_case Flask fields) and the fallback object (camelCase) have
different shapes in the JavaScript, modelled as a sum. -/
def analyzeImageWithAI (flaskResult : Except ErrCode FlaskData)
    (rnd : FallbackRands) : Except ErrCode (FlaskData ⊕ FallbackAnalysis) :=
  match flaskResult with
  | .ok d => .ok (.inl d)
  | .error .econnrefused => .ok (.inr (generateFallbackAnalysis none rnd))
  | .error .etimedout => .ok (.inr (generateFallbackAnalysis none rnd))
  | .error .other => .error .other

/-- **C9.** When the Flask AI call fails with connection-refused or
timeout, `analyzeImageWithAI` does not propagate the error: it returns the
fallback analysis, whose predictions list is empty, topDisease is null,
overallConfidence is 0 and whose score is `⌊r·30⌋ + 70`, an integer in
[70, 99] for the `Math.random()` draw `r ∈ [0,1)`; two runs on identical
input with different draws can return different scores, so this path is
not a deterministic function of the survey input. -/
theorem fallback_on_connection_failure (e : ErrCode)
    (he : e = .econnrefused ∨ e = .etimedout)
    (rnd : FallbackRands) (hr : 0 ≤ rnd.scoreR ∧ rnd.scoreR < 1) :
    analyzeImageWithAI (.error e) rnd =
      .ok (.inr (generateFallbackAnalysis none rnd)) ∧
    (generateFallbackAnalysis none rnd).predictions = [] ∧
    (generateFallbackAnalysis none rnd).topDisease = none ∧
    (generateFallbackAnalysis none rnd).overallConfidence = 0 ∧
    70 ≤ (generateFallbackAnalysis none rnd).score ∧
    (generateFallbackAnalysis none rnd).score ≤ 99 ∧
    ∃ r1 r2 : FallbackRands,
      (0 ≤ r1.scoreR ∧ r1.scoreR < 1) ∧ (0 ≤ r2.scoreR ∧ r2.scoreR < 1) ∧
      (generateFallbackAnalysis none r1).score ≠
        (generateFallbackAnalysis none r2).score := by
  have hsc : (generateFallbackAnalysis none rnd).score = ⌊rnd.scoreR * 30⌋ + 70 := rfl
  refine ⟨?_, rfl, rfl, rfl, ?_, ?_, ?_⟩
  · rcases he with he | he <;> subst he <;> rfl
  · rw [hsc]
    have : (0 : ℤ) ≤ ⌊rnd.scoreR * 30⌋ := Int.floor_nonneg.2 (by nlinarith [hr.1])
    omega
  · rw [hsc]
    have : ⌊rnd.scoreR * 30⌋ < 30 := Int.floor_lt.2 (by push_cast; nlinarith [hr.2])
    omega
  · refine ⟨⟨0, 0, 0, 0, 0⟩, ⟨1/2, 0, 0, 0, 0⟩, ⟨le_refl 0, by norm_num⟩,
      ⟨by norm_num, by norm_num⟩, ?_⟩
    show ⌊(0 : ℚ) * 30⌋ + 70 ≠ ⌊(1/2 : ℚ) * 30⌋ + 70
    norm_num

/-- Witness for C9 at the `ECONNREFUSED` error and the all-zero draws. -/
theorem fallback_on_connection_failure_w :
    analyzeImageWithAI (.error .econnrefused) ⟨0, 0, 0, 0, 0⟩ =
      .ok (.inr (generateFallbackAnalysis none ⟨0, 0, 0, 0, 0⟩)) ∧
    70 ≤ (generateFallbackAnalysis none ⟨0, 0, 0, 0, 0⟩).score ∧
    (generateFallbackAnalysis none ⟨0, 0, 0, 0, 0⟩).score ≤ 99 := by
  have h := fallback_on_connection_failure .econnrefused (Or.inl rfl)
    ⟨0, 0, 0, 0, 0⟩ ⟨le_refl 0, by norm_num⟩
  exact ⟨h.1, h.2.2.2.2.1, h.2.2.2.2.2.1⟩

/-- From `ai.js` line 485 (`generateAnalysis`): JavaScript
`(aiAnalysis.overall_confidence || 0.7)` — the default applies when the
field is absent (`undefined`) or exactly 0, both falsy. -/
def jsOrDefault (x : Option ℚ) (dflt : ℚ) : ℚ :=
  match x with
  | none => dflt
  | some v => if v = 0 then dflt else v

/-- From `ai.js` line 485 (`generateAnalysis`): the integrated score,
`Math.floor((aiAnalysis.overall_confidence || 0.7) * 100)`.  The rest of
the returned object (recommendation merging, survey echo, detailed
scores) does not feed into this field and is not modelled here. -/
def generateAnalysisScore (overall_confidence : Option ℚ) : ℤ :=
  ⌊jsOrDefault overall_confidence (7/10) * 100⌋

/-- **C10.** For a successful AI analysis the reported integer score is
`⌊overall_confidence · 100⌋`, except that a confidence of exactly 0 — or
an absent field — falls through JavaScript `||` to the 0.7 default,
yielding `⌊0.7 · 100⌋ = 70`: an analysis with overall confidence 0 is
presented with score 70, never 0. -/
theorem score_defaults_on_zero_confidence :
    (∀ x : ℚ, x ≠ 0 → generateAnalysisScore (some x) = ⌊x * 100⌋) ∧
    generateAnalysisScore (some 0) = 70 ∧
    generateAnalysisScore none = 70 ∧
    generateAnalysisScore (some 0) ≠ 0 := by
  refine ⟨?_, ?_, ?_, ?_⟩
  · intro x hx
    show ⌊(if x = 0 then (7 : ℚ)/10 else x) * 100⌋ = ⌊x * 100⌋
    rw [if_neg hx]
  · show ⌊(if (0 : ℚ) = 0 then (7 : ℚ)/10 else 0) * 100⌋ = 70
    rw [if_pos rfl]
    norm_num
  · show ⌊((7 : ℚ)/10) * 100⌋ = 70
    norm_num
  · show ⌊(if (0 : ℚ) = 0 then (7 : ℚ)/10 else 0) * 100⌋ ≠ 0
    rw [if_pos rfl]
    norm_num

/-- Witness for C10 at overall confidence 1/2: the score is ⌊50⌋ = 50. -/
theorem score_defaults_on_zero_confidence_w :
    (1 : ℚ)/2 ≠ 0 ∧ generateAnalysisScore (some ((1 : ℚ)/2)) = ⌊(1 : ℚ)/2 * 100⌋ :=
  ⟨by norm_num, score_defaults_on_zero_confidence.1 ((1 : ℚ)/2) (by norm_num)⟩

end SkinEval
